import Mathlib

/-!
Shallow embedding of the bit-scout document index (Go) for specification
checking.

Sources embedded:
* `internal/index/query.go` — query language: `ParseQuery`, `parseCondition`,
  `Query.Evaluate`, `QueryCondition.Evaluate`, `evaluateNumeric`.
* the in-memory `SimpleIndex` — CRUD, `Search`, `searchAdvanced`,
  `searchSimple`, `Count`.
* `internal/index/persistedsimple.go` — the write-behind
  `PersistedSimpleIndex`: mutating calls with non-blocking enqueue, the
  background worker, startup load, `Close`.

Modelling conventions:
* Go strings are modelled by Lean `String`; `strings.ToLower`,
  `strings.EqualFold` are modelled on their ASCII behaviour (all inputs in
  the claims are ASCII).  Byte-wise string comparison coincides with
  code-point lexicographic comparison on valid UTF-8, which is how the
  ordering helpers below compare.
* Go maps are modelled as association lists with unique keys
  (insert-replaces, delete-removes, lookup-first); iteration order of a Go
  map is unspecified, so every theorem below states only
  order-insensitive facts about map iteration, or uses single-entry maps.
* `float64` values inside documents are never compared by the embedded
  code paths (only the vector length is ever observed), so vector entries
  are modelled as `ℚ`.  `strconv.ParseFloat` is modelled for finite
  decimal literals (sign, digits, fraction, exponent); hex floats,
  inf/nan and digit-group underscores are omitted — no claim involves
  them — and parsed values are represented exactly as decimal pairs
  `(n, e)` denoting `n · 10 ^ e` (so numeric comparisons are exact; the
  Go code compares the nearest `float64`s, which agrees on all claim
  inputs).
* A Go function returning `error` is modelled as `Except GoFault _`;
  a runtime panic is the `GoFault.goPanic` case, a returned non-nil
  `error` the `GoFault.goError` case with the `fmt.Errorf` message.
-/

namespace BitScout

/-- A Go `error` value (`goError`) or runtime panic (`goPanic`), with its
message text. -/
inductive GoFault where
  | goError (msg : String)
  | goPanic (msg : String)
deriving DecidableEq, Repr

/-- Message text of a fault, as `err.Error()` renders it. -/
def GoFault.msg : GoFault → String
  | .goError m => m
  | .goPanic m => m

/-- Boolean success test for an embedded Go result. -/
def isOkB {α : Type} : Except GoFault α → Bool
  | .ok _ => true
  | .error _ => false

instance {ε α : Type} [DecidableEq ε] [DecidableEq α] : DecidableEq (Except ε α) :=
  fun a b =>
    match a, b with
    | .ok x, .ok y =>
      if h : x = y then .isTrue (by rw [h]) else .isFalse (fun he => h (Except.ok.inj he))
    | .error x, .error y =>
      if h : x = y then .isTrue (by rw [h]) else .isFalse (fun he => h (Except.error.inj he))
    | .ok _, .error _ => .isFalse (fun he => Except.noConfusion he)
    | .error _, .ok _ => .isFalse (fun he => Except.noConfusion he)

/-! ## Go string helpers -/

/-- Is `sub` a prefix of `s` (on character lists)? -/
def isPrefixList : List Char → List Char → Bool
  | [], _ => true
  | _ :: _, [] => false
  | a :: as, b :: bs => a == b && isPrefixList as bs

/-- Does `s` contain `sub` as a contiguous substring?  Mirrors
`strings.Contains(s, sub)` (true for the empty `sub`). -/
def containsList (sub : List Char) : List Char → Bool
  | [] => isPrefixList sub []
  | c :: rest => isPrefixList sub (c :: rest) || containsList sub rest

/-- `strings.Contains(s, sub)`. -/
def goContains (s sub : String) : Bool :=
  containsList sub.data s.data

/-- `strings.ToLower`, on its ASCII behaviour. -/
def goToLower (s : String) : String :=
  String.mk (s.data.map Char.toLower)

/-- `strings.EqualFold`, on its ASCII behaviour (case-insensitive equality). -/
def goEqualFold (a b : String) : Bool :=
  goToLower a == goToLower b

/-- `unicode.IsSpace` restricted to Latin-1: the characters
`strings.TrimSpace` trims. -/
def goIsSpace (c : Char) : Bool :=
  c == ' ' || c == '\t' || c == '\n' || c == '\x0b' || c == '\x0c' ||
  c == '\r' || c == '\x85' || c == '\xa0'

/-- `strings.TrimSpace`. -/
def goTrimSpace (s : String) : String :=
  String.mk (((s.data.dropWhile goIsSpace).reverse.dropWhile goIsSpace).reverse)

/-- The splitting loop of `strings.Split` for a non-empty separator:
leftmost, non-overlapping; `acc` is the reversed current segment, `fuel`
bounds the recursion (one character is consumed per step). -/
def splitGo (sep : List Char) : Nat → List Char → List Char → List (List Char)
  | 0, s, acc => [acc.reverse ++ s]
  | fuel + 1, s, acc =>
    match s with
    | [] => [acc.reverse]
    | c :: rest =>
      if isPrefixList sep (c :: rest) then
        acc.reverse :: splitGo sep fuel ((c :: rest).drop sep.length) []
      else splitGo sep fuel rest (c :: acc)

/-- `strings.Split(s, sep)` for a non-empty separator. -/
def goSplit (s sep : String) : List String :=
  (splitGo sep.data (s.data.length + 1) s.data []).map String.mk

/-- Byte-wise `<` on Go strings.  On valid UTF-8, byte order equals
code-point lexicographic order, compared here. -/
def goStrLtList : List Char → List Char → Bool
  | [], [] => false
  | [], _ :: _ => true
  | _ :: _, [] => false
  | a :: as, b :: bs =>
    if a.toNat < b.toNat then true
    else if b.toNat < a.toNat then false
    else goStrLtList as bs

/-- Go `a < b` on strings. -/
def goStrLt (a b : String) : Bool := goStrLtList a.data b.data

/-- Go `a <= b` on strings. -/
def goStrLe (a b : String) : Bool := goStrLt a b || a == b

/-! ## strconv.ParseFloat (decimal subset), exact decimal values

A parsed value is represented exactly as a pair `(n, e) : ℤ × ℤ` denoting
`n · 10 ^ e` (a decimal literal always has this form); comparisons bring
both sides to the smaller exponent, which is exact — no rounding. -/

/-- Value of a digit string (most significant first). -/
def digitsVal (cs : List Char) : Nat :=
  cs.foldl (fun a c => 10 * a + (c.toNat - 48)) 0

/-- Is `n₁ · 10 ^ e₁ < n₂ · 10 ^ e₂`? -/
def decLt (a b : ℤ × ℤ) : Bool :=
  if a.2 ≤ b.2 then a.1 < b.1 * (10 : ℤ) ^ (b.2 - a.2).toNat
  else a.1 * (10 : ℤ) ^ (a.2 - b.2).toNat < b.1

/-- Is `n₁ · 10 ^ e₁ ≤ n₂ · 10 ^ e₂`? -/
def decLe (a b : ℤ × ℤ) : Bool :=
  if a.2 ≤ b.2 then a.1 ≤ b.1 * (10 : ℤ) ^ (b.2 - a.2).toNat
  else a.1 * (10 : ℤ) ^ (a.2 - b.2).toNat ≤ b.1

/-- `strconv.ParseFloat(s, 64)` modelled for finite decimal literals:
optional sign, digits with optional fraction, optional exponent; the
whole string must be consumed.  Hex floats, inf/nan and digit-group
underscores are omitted (no claim involves them).  Returns the exact
decimal value as `(n, e)` for `n · 10 ^ e`. -/
def goParseFloat (s : String) : Option (ℤ × ℤ) :=
  let cs := s.data
  let signRest : ℤ × List Char :=
    match cs with
    | '+' :: r => (1, r)
    | '-' :: r => (-1, r)
    | r => (1, r)
  let sign := signRest.1
  let cs := signRest.2
  let intPart := cs.takeWhile Char.isDigit
  let cs1 := cs.dropWhile Char.isDigit
  let fracRest : List Char × List Char :=
    match cs1 with
    | '.' :: r => (r.takeWhile Char.isDigit, r.dropWhile Char.isDigit)
    | r => ([], r)
  let fracPart := fracRest.1
  let cs2 := fracRest.2
  if intPart.isEmpty && fracPart.isEmpty then none
  else
    let num : ℤ := sign * (digitsVal (intPart ++ fracPart) : ℤ)
    let exp : ℤ := -(fracPart.length : ℤ)
    match cs2 with
    | [] => some (num, exp)
    | e :: r =>
      if e == 'e' || e == 'E' then
        let esignRest : ℤ × List Char :=
          match r with
          | '+' :: t => (1, t)
          | '-' :: t => (-1, t)
          | t => (1, t)
        let eds := esignRest.2.takeWhile Char.isDigit
        if eds.isEmpty || !(esignRest.2.dropWhile Char.isDigit).isEmpty then none
        else some (num, exp + esignRest.1 * (digitsVal eds : ℤ))
      else none

/-! ## Query language (`internal/index/query.go`) -/

/-- `QueryOperator`: comparison operators.  The Go type is a string; the
seven values produced by the grammar are enumerated. -/
inductive QueryOperator where
  | OpEquals
  | OpNotEquals
  | OpLess
  | OpLessEq
  | OpGreater
  | OpGreaterEq
  | OpContains
deriving DecidableEq, Repr

/-- The string a `QueryOperator` denotes (used in error messages). -/
def QueryOperator.toStr : QueryOperator → String
  | .OpEquals => "="
  | .OpNotEquals => "!="
  | .OpLess => "<"
  | .OpLessEq => "<="
  | .OpGreater => ">"
  | .OpGreaterEq => ">="
  | .OpContains => "contains"

/-- The operator a regex alternative denotes. -/
def operatorOfString (s : String) : QueryOperator :=
  if s == "=" then .OpEquals
  else if s == "!=" then .OpNotEquals
  else if s == "<=" then .OpLessEq
  else if s == ">=" then .OpGreaterEq
  else if s == "<" then .OpLess
  else if s == ">" then .OpGreater
  else .OpContains

/-- `QueryCondition`: a single `dimension operator value` condition. -/
structure QueryCondition where
  Dimension : String
  Operator : QueryOperator
  Value : String
deriving DecidableEq, Repr

/-- `Query`: a parsed query. -/
structure Query where
  Conditions : List QueryCondition
  RawQuery : String
deriving DecidableEq, Repr

/-! The condition regex `^(\w+)\s*(=|!=|<=|>=|<|>|contains)\s*(.+)$` is
modelled by an explicit backtracking matcher with Go's leftmost-first
semantics: `(\w+)` is greedy (longest dimension first), the operator
alternatives are tried in written order, and `(.+)` must cover the whole
non-empty remainder with no newline (`.` does not match `\n`, `$` is end
of text).  The `\s*` between dimension and operator never needs
backtracking because no alternative starts with a whitespace character;
the `\s*` before the value backtracks (it may hand whitespace back to
`(.+)` to make it non-empty). -/

/-- RE2 `\w`: `[0-9A-Za-z_]`. -/
def isWordChar (c : Char) : Bool := c.isAlphanum || c == '_'

/-- RE2 `\s`: `[\t\n\f\r ]`. -/
def reIsSpace (c : Char) : Bool :=
  c == '\t' || c == '\n' || c == '\x0c' || c == '\r' || c == ' '

/-- Match `\s*(.+)$` against `rest`, giving up `k` whitespace characters
greedily and backtracking toward `0`; the group-3 capture must be
non-empty and newline-free. -/
def group3Go (rest : List Char) : Nat → Option (List Char)
  | 0 =>
    if !rest.isEmpty && rest.all (fun c => c != '\n') then some rest else none
  | k + 1 =>
    let r := rest.drop (k + 1)
    if !r.isEmpty && r.all (fun c => c != '\n') then some r
    else group3Go rest k

/-- Match `\s*(.+)$` against `rest`. -/
def group3 (rest : List Char) : Option (List Char) :=
  group3Go rest (rest.takeWhile reIsSpace).length

/-- The regex's operator alternatives, in written (leftmost-first) order. -/
def opAlternatives : List String := ["=", "!=", "<=", ">=", "<", ">", "contains"]

/-- Try the operator alternatives in order at `afterWs`; on a literal
match, the remainder must satisfy `\s*(.+)$`, else the next alternative
is tried. -/
def tryOps (dim : List Char) (afterWs : List Char) :
    List String → Option (String × String × String)
  | [] => none
  | op :: more =>
    if isPrefixList op.data afterWs then
      match group3 (afterWs.drop op.data.length) with
      | some v => some (String.mk dim, op, String.mk v)
      | none => tryOps dim afterWs more
    else tryOps dim afterWs more

/-- Try dimension lengths `k+1` down to `1` (greedy `(\w+)`). -/
def tryDim (cs : List Char) : Nat → Option (String × String × String)
  | 0 => none
  | k + 1 =>
    let dim := cs.take (k + 1)
    let rest := cs.drop (k + 1)
    let afterWs := rest.dropWhile reIsSpace
    match tryOps dim afterWs opAlternatives with
    | some r => some r
    | none => tryDim cs k

/-- `re.FindStringSubmatch` for the condition regex: the three captured
groups, or `none` when the whole string does not match. -/
def regexCondMatch (s : String) : Option (String × String × String) :=
  tryDim s.data (s.data.takeWhile isWordChar).length

/-- The quote-stripping step of `parseCondition`: a value enclosed in
matching double or single quotes loses them via `value[1 : len(value)-1]`;
on a single quote character that slice is `[1:0]` and Go panics. -/
def stripQuotes (value : String) : Except GoFault String :=
  if (isPrefixList ['"'] value.data && isPrefixList ['"'] value.data.reverse) ||
      (isPrefixList ['\''] value.data && isPrefixList ['\''] value.data.reverse) then
    if value.length < 2 then
      .error (.goPanic "runtime error: slice bounds out of range")
    else .ok (String.mk ((value.data.drop 1).dropLast))
  else .ok value

/-- `parseCondition`: match the condition regex, trim the value, strip
quotes. -/
def parseCondition (conditionStr : String) : Except GoFault QueryCondition :=
  match regexCondMatch conditionStr with
  | none => .error (.goError ("invalid condition format: " ++ conditionStr))
  | some (dim, opStr, rawValue) =>
    match stripQuotes (goTrimSpace rawValue) with
    | .error f => .error f
    | .ok value =>
      .ok { Dimension := dim, Operator := operatorOfString opStr, Value := value }

/-- The per-part loop of `ParseQuery`: trim, skip empty parts, parse,
wrap a returned error with the failing part (a panic propagates). -/
def parseParts : List String → List QueryCondition →
    Except GoFault (List QueryCondition)
  | [], acc => .ok acc
  | part :: rest, acc =>
    let part := goTrimSpace part
    if part == "" then parseParts rest acc
    else
      match parseCondition part with
      | .error (.goError m) =>
        .error (.goError ("failed to parse condition '" ++ part ++ "': " ++ m))
      | .error f => .error f
      | .ok c => parseParts rest (acc ++ [c])

/-- `ParseQuery`: split on the literal `" and "`, parse each non-empty
trimmed part. -/
def ParseQuery (queryStr : String) : Except GoFault Query :=
  match parseParts (goSplit queryStr " and ") [] with
  | .error f => .error f
  | .ok conds => .ok { Conditions := conds, RawQuery := queryStr }

/-! ## Document and Go-map model -/

/-- Association-list model of a Go map (unique keys; insert replaces in
place, delete removes, lookup finds the key's entry). -/
def mapLookup {α : Type} (m : List (String × α)) (k : String) : Option α :=
  (m.find? (fun p => p.1 == k)).map (fun p => p.2)

/-- Insert-or-replace for the Go-map model. -/
def mapInsert {α : Type} : List (String × α) → String → α → List (String × α)
  | [], k, v => [(k, v)]
  | (k', v') :: rest, k, v =>
    if k' == k then (k, v) :: rest else (k', v') :: mapInsert rest k v

/-- Key removal for the Go-map model. -/
def mapDelete {α : Type} (m : List (String × α)) (k : String) : List (String × α) :=
  m.filter (fun p => p.1 != k)

/-- `models.Document` (its source file is absent from the tree; the shape
is fixed identically by `corpus.Document` and by every use in
`internal/index`): ID, text, source, float64 vector, string metadata.
Vector entries are modelled as `ℚ`; no embedded code path reads them. -/
structure Document where
  ID : String
  Text : String
  Source : String
  Vector : List ℚ
  Meta : List (String × String)
deriving DecidableEq, Repr

/-! ## Condition and query evaluation -/

/-- `evaluateNumeric`: parse the document value as a float; on failure
fall back to byte-wise string comparison with the query literal; on
success the query literal must parse too (else a hard error), and the
comparison is numeric. -/
def QueryCondition.evaluateNumeric (c : QueryCondition) (docValue : String) :
    Except GoFault Bool :=
  match goParseFloat docValue with
  | none =>
    match c.Operator with
    | .OpLess => .ok (goStrLt docValue c.Value)
    | .OpLessEq => .ok (goStrLe docValue c.Value)
    | .OpGreater => .ok (goStrLt c.Value docValue)
    | .OpGreaterEq => .ok (goStrLe c.Value docValue)
    | op => .error (.goError ("unsupported numeric operator: " ++ op.toStr))
  | some docNum =>
    match goParseFloat c.Value with
    | none => .error (.goError ("query value '" ++ c.Value ++ "' is not numeric"))
    | some queryNum =>
      match c.Operator with
      | .OpLess => .ok (decLt docNum queryNum)
      | .OpLessEq => .ok (decLe docNum queryNum)
      | .OpGreater => .ok (decLt queryNum docNum)
      | .OpGreaterEq => .ok (decLe queryNum docNum)
      | op => .error (.goError ("unsupported numeric operator: " ++ op.toStr))

/-- The operator dispatch of `QueryCondition.Evaluate` once the document
value has been resolved: empty value is always false; `=`/`!=` fold case;
`contains` is case-insensitive containment; ordering operators go
numeric. -/
def QueryCondition.evalWithValue (c : QueryCondition) (docValue : String) :
    Except GoFault Bool :=
  if docValue == "" then .ok false
  else
    match c.Operator with
    | .OpEquals => .ok (goEqualFold docValue c.Value)
    | .OpNotEquals => .ok (!goEqualFold docValue c.Value)
    | .OpContains => .ok (goContains (goToLower docValue) (goToLower c.Value))
    | _ => c.evaluateNumeric docValue

/-- `QueryCondition.Evaluate`: resolve the dimension in `Meta`, falling
back to the `filename`/`path`/`text` synonyms; an unknown dimension is
false (not an error). -/
def QueryCondition.Evaluate (c : QueryCondition) (doc : Document) :
    Except GoFault Bool :=
  match mapLookup doc.Meta c.Dimension with
  | some v => c.evalWithValue v
  | none =>
    match c.Dimension with
    | "filename" => c.evalWithValue ((mapLookup doc.Meta "filename").getD "")
    | "path" => c.evalWithValue doc.Source
    | "text" => c.evalWithValue doc.Text
    | _ => .ok false

/-- The condition loop of `Query.Evaluate`: every condition must hold
(AND, short-circuit); a condition error is wrapped and returned. -/
def evalConditions (doc : Document) : List QueryCondition → Except GoFault Bool
  | [] => .ok true
  | c :: rest =>
    match c.Evaluate doc with
    | .error f => .error (.goError ("condition evaluation failed: " ++ f.msg))
    | .ok false => .ok false
    | .ok true => evalConditions doc rest

/-- `Query.Evaluate`. -/
def Query.Evaluate (q : Query) (doc : Document) : Except GoFault Bool :=
  evalConditions doc q.Conditions

/-! ## In-memory SimpleIndex -/

/-- Stand-in for a Go `interface\x7b\x7d` configuration value; the index
never inspects configuration values. -/
structure ConfigValue where
  tag : String
deriving DecidableEq, Repr

/-- `SimpleIndex`: ID-keyed document map plus a configuration map.  Go
methods mutate the receiver; they are modelled as `state → state × result`
(search-side methods return only a result). -/
structure SimpleIndex where
  documents : List (String × Document)
  config : List (String × ConfigValue)
deriving DecidableEq, Repr

/-- `NewSimpleIndex`. -/
def NewSimpleIndex : SimpleIndex :=
  { documents := [], config := [] }

/-- `SimpleIndex.Configure`: wholesale replacement, always succeeds. -/
def SimpleIndex.Configure (idx : SimpleIndex) (config : List (String × ConfigValue)) :
    SimpleIndex × Except GoFault Unit :=
  ({ idx with config := config }, .ok ())

/-- `SimpleIndex.AddDocument`: insert-or-replace by ID, unconditional
success. -/
def SimpleIndex.AddDocument (idx : SimpleIndex) (doc : Document) :
    SimpleIndex × Except GoFault Unit :=
  ({ idx with documents := mapInsert idx.documents doc.ID doc }, .ok ())

/-- `SimpleIndex.AddDocuments`: `AddDocument` in order (never fails). -/
def SimpleIndex.AddDocuments : SimpleIndex → List Document →
    SimpleIndex × Except GoFault Unit
  | idx, [] => (idx, .ok ())
  | idx, doc :: rest =>
    let r := idx.AddDocument doc
    match r.2 with
    | .error f => (r.1, .error f)
    | .ok _ => SimpleIndex.AddDocuments r.1 rest

/-- `SimpleIndex.DeleteDocument`: absent ID is an error and leaves the
map untouched. -/
def SimpleIndex.DeleteDocument (idx : SimpleIndex) (id : String) :
    SimpleIndex × Except GoFault Unit :=
  match mapLookup idx.documents id with
  | none => (idx, .error (.goError ("document " ++ id ++ " not found in index")))
  | some _ => ({ idx with documents := mapDelete idx.documents id }, .ok ())

/-- `SimpleIndex.DeleteDocuments`: delete in order, aborting at the first
failure (prior deletions stay applied). -/
def SimpleIndex.DeleteDocuments : SimpleIndex → List String →
    SimpleIndex × Except GoFault Unit
  | idx, [] => (idx, .ok ())
  | idx, id :: rest =>
    let r := idx.DeleteDocument id
    match r.2 with
    | .error f => (r.1, .error f)
    | .ok _ => SimpleIndex.DeleteDocuments r.1 rest

/-- `SimpleIndex.UpdateDocument`: absent target ID is an error; otherwise
the value keyed by the target ID is replaced (even if `doc.ID` differs). -/
def SimpleIndex.UpdateDocument (idx : SimpleIndex) (id : String) (doc : Document) :
    SimpleIndex × Except GoFault Unit :=
  match mapLookup idx.documents id with
  | none => (idx, .error (.goError ("document " ++ id ++ " not found in index")))
  | some _ => ({ idx with documents := mapInsert idx.documents id doc }, .ok ())

/-- `SimpleIndex.UpdateDocuments`: per-document `UpdateDocument` keyed by
each document's own ID, aborting at the first failure. -/
def SimpleIndex.UpdateDocuments : SimpleIndex → List Document →
    SimpleIndex × Except GoFault Unit
  | idx, [] => (idx, .ok ())
  | idx, doc :: rest =>
    let r := idx.UpdateDocument doc.ID doc
    match r.2 with
    | .error f => (r.1, .error f)
    | .ok _ => SimpleIndex.UpdateDocuments r.1 rest

/-- `SimpleIndex.Count`. -/
def SimpleIndex.Count (idx : SimpleIndex) : Nat × Except GoFault Unit :=
  (idx.documents.length, .ok ())

/-- Does any metadata key or value contain the (lower-cased) query?  The
Go inner loop appends once and breaks at the first matching entry. -/
def metaMatches (q : String) (meta : List (String × String)) : Bool :=
  meta.any (fun kv => goContains (goToLower kv.1) q || goContains (goToLower kv.2) q)

/-- The document loop of `searchSimple`: a text match appends and skips
the remaining checks (`continue`); otherwise a metadata match appends,
and the source check runs regardless and may append the same document a
second time. -/
def searchSimpleGo (q : String) : List (String × Document) → List Document
  | [] => []
  | (_, doc) :: rest =>
    (if goContains (goToLower doc.Text) q then [doc]
     else
       (if metaMatches q doc.Meta then [doc] else []) ++
       (if goContains (goToLower doc.Source) q then [doc] else [])) ++
    searchSimpleGo q rest

/-- `SimpleIndex.searchSimple`: case-insensitive substring fallback. -/
def SimpleIndex.searchSimple (idx : SimpleIndex) (query : String) :
    Except GoFault (List Document) :=
  .ok (searchSimpleGo (goToLower query) idx.documents)

/-- The document loop of `searchAdvanced`: an evaluation error is logged
and the document skipped; matching documents are appended. -/
def searchAdvancedGo (q : Query) : List (String × Document) → List Document
  | [] => []
  | (_, doc) :: rest =>
    match q.Evaluate doc with
    | .error _ => searchAdvancedGo q rest
    | .ok true => doc :: searchAdvancedGo q rest
    | .ok false => searchAdvancedGo q rest

/-- `SimpleIndex.searchAdvanced`: always returns `ok`. -/
def SimpleIndex.searchAdvanced (idx : SimpleIndex) (q : Query) :
    Except GoFault (List Document) :=
  .ok (searchAdvancedGo q idx.documents)

/-- `SimpleIndex.Search`: empty query is an empty result; a successful
parse with at least one condition takes the advanced path, otherwise the
substring fallback runs (a parse panic propagates). -/
def SimpleIndex.Search (idx : SimpleIndex) (query : String) :
    Except GoFault (List Document) :=
  if query == "" then .ok []
  else
    match ParseQuery query with
    | .ok pq =>
      if pq.Conditions.length > 0 then idx.searchAdvanced pq
      else idx.searchSimple query
    | .error (.goError _) => idx.searchSimple query
    | .error (.goPanic m) => .error (.goPanic m)

/-! ## Durable store model (bbolt + encoding/json, external dependencies)

The key-value engine and JSON codec are third-party; they are modelled by
the contract the spec's section 6 states: two buckets, atomic
transactions, and a self-describing serialization with lossless
round-trip.  A stored blob is either the well-formed encoding of a
document, the well-formed encoding of a configuration map, or bytes that
fail to decode (`corrupt`); `json.Marshal` of a `Document` or
configuration map cannot fail.  Cross-type decoding cannot arise: each
bucket is only ever written by the code with its own blob type. -/

/-- A serialized value in the store. -/
inductive Blob where
  | doc (d : Document)
  | cfg (c : List (String × ConfigValue))
  | corrupt (raw : String)
deriving DecidableEq, Repr

/-- The durable store: the `documents` bucket (keyed by document ID) and
the single `index_config` entry of the `config` bucket.  Both buckets
exist from `OpenDatabase` on. -/
structure Store where
  documents : List (String × Blob)
  config : Option Blob
deriving DecidableEq, Repr

/-- `dbOperation`: in Go a string tag plus an `interface\x7b\x7d` payload;
the tag/payload pairs dispatched by `processDBOperation` are enumerated. -/
inductive DbOperation where
  | add_document (doc : Document)
  | add_documents (docs : List Document)
  | update_document (id : String) (doc : Document)
  | delete_document (id : String)
  | delete_documents (ids : List String)
  | update_documents (docs : List Document)
  | configure (config : List (String × ConfigValue))
deriving DecidableEq, Repr

/-- One `db.Update` transaction of the async worker, per job kind
(`asyncAddDocument` … `asyncConfigure`): the batch forms put or delete
every element inside the one transaction.  A bbolt transaction failure is
environmental I/O and is not modelled; on failure the code logs, leaves
the store unchanged and never retries. -/
def processDBOperation (store : Store) : DbOperation → Store
  | .add_document doc =>
    { store with documents := mapInsert store.documents doc.ID (.doc doc) }
  | .add_documents docs =>
    { store with documents :=
        docs.foldl (fun b d => mapInsert b d.ID (.doc d)) store.documents }
  | .update_document id doc =>
    { store with documents := mapInsert store.documents id (.doc doc) }
  | .delete_document id =>
    { store with documents := mapDelete store.documents id }
  | .delete_documents ids =>
    { store with documents := ids.foldl mapDelete store.documents }
  | .update_documents docs =>
    { store with documents :=
        docs.foldl (fun b d => mapInsert b d.ID (.doc d)) store.documents }
  | .configure config =>
    { store with config := some (.cfg config) }

/-! ## PersistedSimpleIndex -/

/-- `PersistedSimpleIndex`: the wrapped in-memory index, the database
handle (`none` until `OpenDatabase`), the buffered channel `opChan`
(its queued jobs and its capacity, 1000 at construction), and whether
the `done` channel has been closed.  The `sync.WaitGroup` and the mutex
are synchronization primitives with no further state. -/
structure PersistedSimpleIndex where
  index : SimpleIndex
  db : Option Store
  opChan : List DbOperation
  opChanCap : Nat
  doneClosed : Bool
deriving DecidableEq, Repr

/-- `NewPersistedSimpleIndex`: fresh in-memory index, no database, an
empty 1000-slot queue, open `done` channel. -/
def NewPersistedSimpleIndex : PersistedSimpleIndex :=
  { index := NewSimpleIndex, db := none, opChan := [], opChanCap := 1000,
    doneClosed := false }

/-- The guarded non-blocking enqueue every mutating call performs: only
with an open database, and only if the bounded queue has room; a full
queue drops the job (the caller is never blocked). -/
def enqueueIfOpen (p : PersistedSimpleIndex) (op : DbOperation) :
    PersistedSimpleIndex :=
  match p.db with
  | none => p
  | some _ =>
    if p.opChan.length < p.opChanCap then { p with opChan := p.opChan ++ [op] }
    else p

/-- `PersistedSimpleIndex.Configure`. -/
def PersistedSimpleIndex.Configure (p : PersistedSimpleIndex)
    (config : List (String × ConfigValue)) :
    PersistedSimpleIndex × Except GoFault Unit :=
  let r := p.index.Configure config
  let p := { p with index := r.1 }
  match r.2 with
  | .error f => (p, .error f)
  | .ok _ => (enqueueIfOpen p (.configure config), .ok ())

/-- `PersistedSimpleIndex.AddDocument`. -/
def PersistedSimpleIndex.AddDocument (p : PersistedSimpleIndex) (doc : Document) :
    PersistedSimpleIndex × Except GoFault Unit :=
  let r := p.index.AddDocument doc
  let p := { p with index := r.1 }
  match r.2 with
  | .error f => (p, .error f)
  | .ok _ => (enqueueIfOpen p (.add_document doc), .ok ())

/-- `PersistedSimpleIndex.AddDocuments`. -/
def PersistedSimpleIndex.AddDocuments (p : PersistedSimpleIndex)
    (docs : List Document) : PersistedSimpleIndex × Except GoFault Unit :=
  let r := p.index.AddDocuments docs
  let p := { p with index := r.1 }
  match r.2 with
  | .error f => (p, .error f)
  | .ok _ => (enqueueIfOpen p (.add_documents docs), .ok ())

/-- `PersistedSimpleIndex.DeleteDocument`. -/
def PersistedSimpleIndex.DeleteDocument (p : PersistedSimpleIndex) (id : String) :
    PersistedSimpleIndex × Except GoFault Unit :=
  let r := p.index.DeleteDocument id
  let p := { p with index := r.1 }
  match r.2 with
  | .error f => (p, .error f)
  | .ok _ => (enqueueIfOpen p (.delete_document id), .ok ())

/-- `PersistedSimpleIndex.DeleteDocuments`. -/
def PersistedSimpleIndex.DeleteDocuments (p : PersistedSimpleIndex)
    (ids : List String) : PersistedSimpleIndex × Except GoFault Unit :=
  let r := p.index.DeleteDocuments ids
  let p := { p with index := r.1 }
  match r.2 with
  | .error f => (p, .error f)
  | .ok _ => (enqueueIfOpen p (.delete_documents ids), .ok ())

/-- `PersistedSimpleIndex.UpdateDocument`. -/
def PersistedSimpleIndex.UpdateDocument (p : PersistedSimpleIndex) (id : String)
    (doc : Document) : PersistedSimpleIndex × Except GoFault Unit :=
  let r := p.index.UpdateDocument id doc
  let p := { p with index := r.1 }
  match r.2 with
  | .error f => (p, .error f)
  | .ok _ => (enqueueIfOpen p (.update_document id doc), .ok ())

/-- `PersistedSimpleIndex.UpdateDocuments`. -/
def PersistedSimpleIndex.UpdateDocuments (p : PersistedSimpleIndex)
    (docs : List Document) : PersistedSimpleIndex × Except GoFault Unit :=
  let r := p.index.UpdateDocuments docs
  let p := { p with index := r.1 }
  match r.2 with
  | .error f => (p, .error f)
  | .ok _ => (enqueueIfOpen p (.update_documents docs), .ok ())

/-- `PersistedSimpleIndex.Search`: delegates to the in-memory index. -/
def PersistedSimpleIndex.Search (p : PersistedSimpleIndex) (query : String) :
    Except GoFault (List Document) :=
  p.index.Search query

/-- `PersistedSimpleIndex.Close`: unguarded `close(p.done)` — on a second
call Go panics with "close of closed channel".  Otherwise the worker is
joined, the database handle closed and cleared, and the wrapped index
closed (a no-op returning nil). -/
def PersistedSimpleIndex.Close (p : PersistedSimpleIndex) :
    Except GoFault PersistedSimpleIndex :=
  if p.doneClosed then .error (.goPanic "close of closed channel")
  else .ok { p with doneClosed := true, db := none }

/-! ## Startup / load path -/

/-- `OpenDatabase`: fails if already open; otherwise adopts the store at
the path (creating file and buckets is idempotent and, like all
filesystem I/O, environmental — modelled as succeeding given the disk
contents) and starts the worker. -/
def PersistedSimpleIndex.OpenDatabase (p : PersistedSimpleIndex) (disk : Store) :
    PersistedSimpleIndex × Except GoFault Unit :=
  match p.db with
  | some _ => (p, .error (.goError "database already open"))
  | none => ({ p with db := some disk }, .ok ())

/-- A fresh index that has opened `disk` (the state
`NewPersistedSimpleIndexWithDatabase` produces). -/
def openedFor (disk : Store) : PersistedSimpleIndex :=
  { NewPersistedSimpleIndex with db := some disk }

/-- `PersistedSimpleIndex.IsDatabaseEmpty`: no first key in the documents
bucket. -/
def PersistedSimpleIndex.IsDatabaseEmpty (p : PersistedSimpleIndex) :
    Bool × Except GoFault Unit :=
  match p.db with
  | none => (true, .error (.goError "database not open"))
  | some s => (s.documents.isEmpty, .ok ())

/-- The `ForEach` decode loop of `LoadDocumentsFromDatabase`: unmarshal
every stored blob, aborting at the first failure. -/
def decodeDocsBucket : List (String × Blob) → Except GoFault (List Document)
  | [] => .ok []
  | (k, b) :: rest =>
    match b with
    | .doc d =>
      match decodeDocsBucket rest with
      | .error f => .error f
      | .ok ds => .ok (d :: ds)
    | _ =>
      .error (.goError ("failed to unmarshal document " ++ k ++ ": invalid JSON"))

/-- `LoadDocumentsFromDatabase`: clear the in-memory index first, then
read and decode the documents bucket; a decode failure aborts (leaving
the index cleared); success bulk-adds the documents. -/
def PersistedSimpleIndex.LoadDocumentsFromDatabase (p : PersistedSimpleIndex) :
    PersistedSimpleIndex × Except GoFault Unit :=
  match p.db with
  | none => (p, .error (.goError "database not open"))
  | some s =>
    let p := { p with index := NewSimpleIndex }
    match decodeDocsBucket s.documents with
    | .error f => (p, .error f)
    | .ok docs =>
      let r := p.index.AddDocuments docs
      let p := { p with index := r.1 }
      match r.2 with
      | .error f =>
        (p, .error (.goError ("failed to add documents to memory index: " ++ f.msg)))
      | .ok _ => (p, .ok ())

/-- `LoadConfigFromDatabase`: missing entry or a decode failure is an
error; success applies the configuration to the in-memory index. -/
def PersistedSimpleIndex.LoadConfigFromDatabase (p : PersistedSimpleIndex) :
    PersistedSimpleIndex × Except GoFault Unit :=
  match p.db with
  | none => (p, .error (.goError "database not open"))
  | some s =>
    match s.config with
    | none => (p, .error (.goError "no configuration found in database"))
    | some (.cfg c) =>
      let r := p.index.Configure c
      let p := { p with index := r.1 }
      match r.2 with
      | .error f =>
        (p, .error (.goError ("failed to apply configuration to memory index: " ++ f.msg)))
      | .ok _ => (p, .ok ())
    | some _ => (p, .error (.goError "invalid JSON"))

/-- `LoadAllFromDatabase`: a configuration-load failure is logged and
swallowed; a document-load failure is returned (wrapped). -/
def PersistedSimpleIndex.LoadAllFromDatabase (p : PersistedSimpleIndex) :
    PersistedSimpleIndex × Except GoFault Unit :=
  let rc := p.LoadConfigFromDatabase
  let p := rc.1
  let rd := p.LoadDocumentsFromDatabase
  match rd.2 with
  | .error f =>
    (rd.1, .error (.goError ("failed to load documents from database: " ++ f.msg)))
  | .ok _ => (rd.1, .ok ())

/-- `NewPersistedSimpleIndexWithDatabase`: fresh index plus
`OpenDatabase`. -/
def NewPersistedSimpleIndexWithDatabase (disk : Store) :
    Except GoFault PersistedSimpleIndex :=
  let r := NewPersistedSimpleIndex.OpenDatabase disk
  match r.2 with
  | .error f => .error (.goError ("failed to open/create database: " ++ f.msg))
  | .ok _ => .ok r.1

/-- `NewPersistedSimpleIndexWithDatabaseAndLoad`: open, return early on
an empty store, otherwise attempt `LoadAllFromDatabase`; a load failure
is logged and the index returned with nil error regardless (the comment
in the source: continue with empty index if loading fails). -/
def NewPersistedSimpleIndexWithDatabaseAndLoad (disk : Store) :
    Except GoFault PersistedSimpleIndex :=
  match NewPersistedSimpleIndexWithDatabase disk with
  | .error f => .error f
  | .ok p =>
    let re := p.IsDatabaseEmpty
    match re.2, re.1 with
    | .ok _, true => .ok p
    | _, _ => .ok p.LoadAllFromDatabase.1

/-! ## Worker transition system

`startAsyncWorker` runs a single goroutine that receives jobs from the
buffered (FIFO) channel `opChan` and applies each through
`processDBOperation` as one transaction.  The interleaving of any number
of producers with the one worker is modelled as a sequence of events:
a producer's non-blocking enqueue attempt, or one worker iteration
(its `txOk` oracle records whether the bbolt transaction committed; a
failed job is logged and discarded, never retried).  The fields
`enqueued`, `processed` and `applied` are ghost history — the jobs
accepted into the channel, the jobs dequeued, and the jobs whose
transaction committed, each in order. -/

/-- The observable plus ghost state of a durable index's queue/worker. -/
structure SysState where
  queue : List DbOperation
  store : Store
  cap : Nat
  enqueued : List DbOperation
  processed : List DbOperation
  applied : List DbOperation
deriving DecidableEq, Repr

/-- An interleaving event: a producer enqueue attempt or one worker
iteration. -/
inductive SysEvent where
  | enqueueAttempt (op : DbOperation)
  | workerStep (txOk : Bool)
deriving DecidableEq, Repr

/-- One event: the channel accepts at the tail iff it has room (else the
job is dropped); the worker dequeues at the head and applies the job as
one transaction. -/
def sysStep (st : SysState) : SysEvent → SysState
  | .enqueueAttempt op =>
    if st.queue.length < st.cap then
      { st with queue := st.queue ++ [op], enqueued := st.enqueued ++ [op] }
    else st
  | .workerStep txOk =>
    match st.queue with
    | [] => st
    | op :: rest =>
      { st with queue := rest,
                processed := st.processed ++ [op],
                store := if txOk then processDBOperation st.store op else st.store,
                applied := if txOk then st.applied ++ [op] else st.applied }

/-- Run a sequence of events. -/
def sysRun : SysState → List SysEvent → SysState
  | st, [] => st
  | st, e :: evs => sysRun (sysStep st e) evs

/-- The initial system state over a store. -/
def initSys (s : Store) (cap : Nat) : SysState :=
  { queue := [], store := s, cap := cap, enqueued := [], processed := [],
    applied := [] }

/-- The jobs a schedule attempts to enqueue, in order. -/
def attemptedOps : List SysEvent → List DbOperation
  | [] => []
  | .enqueueAttempt op :: evs => op :: attemptedOps evs
  | .workerStep _ :: evs => attemptedOps evs

/-! ## Derived combinators and concrete fixtures used by the theorems -/

/-- Is the operator one of the four ordering operators dispatched to
`evaluateNumeric` by `Evaluate`? -/
def isOrderingOp : QueryOperator → Bool
  | .OpLess | .OpLessEq | .OpGreater | .OpGreaterEq => true
  | _ => false

/-- The byte-wise string comparison `evaluateNumeric` falls back to when
the document value is not numeric (document value on the left). -/
def goStrCompare (op : QueryOperator) (docValue queryValue : String) : Bool :=
  match op with
  | .OpLess => goStrLt docValue queryValue
  | .OpLessEq => goStrLe docValue queryValue
  | .OpGreater => goStrLt queryValue docValue
  | .OpGreaterEq => goStrLe queryValue docValue
  | _ => false

/-- The numeric comparison `evaluateNumeric` performs when both sides
parse (document value on the left). -/
def decCompare (op : QueryOperator) (docNum queryNum : ℤ × ℤ) : Bool :=
  match op with
  | .OpLess => decLt docNum queryNum
  | .OpLessEq => decLe docNum queryNum
  | .OpGreater => decLt queryNum docNum
  | .OpGreaterEq => decLe queryNum docNum
  | _ => false

/-- A document that matches the fallback query "foo" in both a metadata
value and the source path, but not in its text. -/
def dupDoc : Document :=
  { ID := "1", Text := "bar", Source := "foo", Vector := [], Meta := [("k", "foo")] }

/-- A one-document index holding `dupDoc`. -/
def dupIdx : SimpleIndex :=
  { NewSimpleIndex with documents := [("1", dupDoc)] }

/-- A store whose documents bucket holds one blob that fails to decode. -/
def diskBad : Store :=
  { documents := [("1", Blob.corrupt "zz")], config := none }

/-- A second corrupt-document store (used by a hypothesis witness). -/
def diskBad2 : Store :=
  { documents := [("7", Blob.corrupt "q")], config := some (.cfg [("max_results", ⟨"10"⟩)]) }

/-- Document with numeric `fileSize` metadata `"100"`. -/
def docFS100 : Document :=
  { ID := "x", Text := "", Source := "", Vector := [], Meta := [("fileSize", "100")] }

/-- Document with non-numeric `fileSize` metadata `"abc"`. -/
def docFSabc : Document :=
  { ID := "x", Text := "", Source := "", Vector := [], Meta := [("fileSize", "abc")] }

/-- The condition `fileSize > 10`. -/
def condFSgt10 : QueryCondition :=
  { Dimension := "fileSize", Operator := .OpGreater, Value := "10" }

/-- The conclusion of the ordering-operator claim for a condition and a
document-side value: fallback to byte-wise comparison when the document
value does not parse, a hard error when only the query literal fails to
parse, numeric comparison when both parse, plus the two concrete
evaluations of `fileSize > 10`. -/
def orderingConclusion (c : QueryCondition) (docValue : String) : Prop :=
  (goParseFloat docValue = none →
    c.evaluateNumeric docValue = .ok (goStrCompare c.Operator docValue c.Value)) ∧
  (∀ x, goParseFloat docValue = some x → goParseFloat c.Value = none →
    c.evaluateNumeric docValue =
      .error (.goError ("query value '" ++ c.Value ++ "' is not numeric"))) ∧
  (∀ x y, goParseFloat docValue = some x → goParseFloat c.Value = some y →
    c.evaluateNumeric docValue = .ok (decCompare c.Operator x y)) ∧
  condFSgt10.Evaluate docFS100 = .ok true ∧
  condFSgt10.Evaluate docFSabc = .ok true

/-- Two-document fixture for the batch-delete claim. -/
def delDocA : Document :=
  { ID := "1", Text := "a", Source := "a.txt", Vector := [], Meta := [] }

/-- Second document of the batch-delete fixture. -/
def delDocB : Document :=
  { ID := "2", Text := "b", Source := "b.txt", Vector := [], Meta := [] }

/-- Index holding `delDocA` and `delDocB`. -/
def delIdx : SimpleIndex :=
  { NewSimpleIndex with documents := [("1", delDocA), ("2", delDocB)] }

/-- The per-entry selector of the advanced-search claim: keep a document
iff its evaluation returns `ok true`; errors and `ok false` are dropped. -/
def keepMatch (q : Query) (e : String × Document) : Option Document :=
  match q.Evaluate e.2 with
  | .ok true => some e.2
  | _ => none

/-- Fixture for the skip-on-error claim: one document whose evaluation
errors (numeric document value, non-numeric query literal) and one that
matches through the string fallback. -/
def errDoc : Document :=
  { ID := "e1", Text := "", Source := "", Vector := [], Meta := [("fileSize", "5")] }

/-- Companion document whose evaluation succeeds via string fallback. -/
def okDoc : Document :=
  { ID := "e2", Text := "", Source := "", Vector := [], Meta := [("fileSize", "big")] }

/-- Index holding `errDoc` and `okDoc`. -/
def errIdx : SimpleIndex :=
  { NewSimpleIndex with documents := [("e1", errDoc), ("e2", okDoc)] }

/-- A durable index with an open database and a full two-slot queue (the
capacity field is 1000 at construction; the claim is stated for any
capacity). -/
def fullQueueIdx : PersistedSimpleIndex :=
  { index := { NewSimpleIndex with documents := [("1", delDocA)] },
    db := some { documents := [], config := none },
    opChan := [.delete_document "x", .delete_document "y"],
    opChanCap := 2, doneClosed := false }

/-- The parsed form of `"fileSize>abc"` (used by the skip-on-error
witness). -/
def advQ : Query :=
  { Conditions := [{ Dimension := "fileSize", Operator := .OpGreater, Value := "abc" }],
    RawQuery := "fileSize>abc" }

/-- The conclusion of the memory-only claim for an unopened database:
each of the seven mutating operations returns exactly the in-memory
result and the state with only the wrapped index changed (so the queue,
the handle and the shutdown flag are untouched and no job is enqueued). -/
def memOnlyConclusion (p : PersistedSimpleIndex) (doc : Document)
    (docs : List Document) (id : String) (ids : List String)
    (cfg : List (String × ConfigValue)) : Prop :=
  p.AddDocument doc =
    ({ p with index := (p.index.AddDocument doc).1 }, (p.index.AddDocument doc).2) ∧
  p.AddDocuments docs =
    ({ p with index := (p.index.AddDocuments docs).1 }, (p.index.AddDocuments docs).2) ∧
  p.UpdateDocument id doc =
    ({ p with index := (p.index.UpdateDocument id doc).1 }, (p.index.UpdateDocument id doc).2) ∧
  p.UpdateDocuments docs =
    ({ p with index := (p.index.UpdateDocuments docs).1 }, (p.index.UpdateDocuments docs).2) ∧
  p.DeleteDocument id =
    ({ p with index := (p.index.DeleteDocument id).1 }, (p.index.DeleteDocument id).2) ∧
  p.DeleteDocuments ids =
    ({ p with index := (p.index.DeleteDocuments ids).1 }, (p.index.DeleteDocuments ids).2) ∧
  p.Configure cfg =
    ({ p with index := (p.index.Configure cfg).1 }, (p.index.Configure cfg).2)

/-- The conclusion of the full-queue claim: a mutating call whose
in-memory mutation succeeds reports success with the in-memory mutation
applied and the job dropped (state otherwise unchanged); `AddDocument`
reports success in every state. -/
def fullQueueConclusion (p : PersistedSimpleIndex) (doc : Document)
    (id : String) : Prop :=
  p.AddDocument doc = ({ p with index := (p.index.AddDocument doc).1 }, .ok ()) ∧
  (∀ q : PersistedSimpleIndex, (q.AddDocument doc).2 = .ok ()) ∧
  p.DeleteDocument id = ({ p with index := (p.index.DeleteDocument id).1 }, .ok ())

/-- The final system state reached from a store by a schedule of
enqueue-attempt and worker events. -/
def sysFinal (s : Store) (cap : Nat) (evs : List SysEvent) : SysState :=
  sysRun (initSys s cap) evs

/-- The inductive invariant of the queue/worker system: ghost history
`enqueued` splits into the processed jobs followed by the still-queued
jobs; the committed jobs are a subsequence of the processed jobs; the
durable store is the left fold of the committed jobs over the initial
store. -/
def SysInv (s : Store) (st : SysState) : Prop :=
  st.enqueued = st.processed ++ st.queue ∧
  List.Sublist st.applied st.processed ∧
  st.store = st.applied.foldl processDBOperation s

/-! ## Helper lemmas -/

/-- `AddDocuments` never fails. -/
theorem addDocuments_ok (docs : List Document) :
    ∀ idx : SimpleIndex, (idx.AddDocuments docs).2 = .ok () := by
  induction docs with
  | nil => intro idx; rfl
  | cons d rest ih => intro idx; simpa [SimpleIndex.AddDocuments, SimpleIndex.AddDocument] using ih _

/-- A full queue drops the job: `enqueueIfOpen` is the identity. -/
theorem enqueueIfOpen_full (p : PersistedSimpleIndex) (op : DbOperation)
    (h : p.opChanCap ≤ p.opChan.length) : enqueueIfOpen p op = p := by
  unfold enqueueIfOpen
  cases p.db with
  | none => rfl
  | some _ => simp [Nat.not_lt.mpr h]

/-- With no open database, `enqueueIfOpen` is the identity. -/
theorem enqueueIfOpen_none (p : PersistedSimpleIndex) (op : DbOperation)
    (h : p.db = none) : enqueueIfOpen p op = p := by
  unfold enqueueIfOpen
  rw [h]

/-! ## Claim theorems -/

/-- C1: the spec requires each stored document to appear at most once in
substring-fallback search results, but `searchSimple` appends a document
at the metadata check (inner `break` only) and again at the source check:
on the fixture, `Search` returns the single stored document twice.  This
contradicts the specified at-most-once guarantee (the `continue` after
the text check shows the dedup intent), so it is a code bug, witnessed
here by evaluating the code. -/
theorem search_fallback_duplicates_document :
    SimpleIndex.Search dupIdx "foo" = .ok [dupDoc, dupDoc] ∧
    ¬ ([dupDoc, dupDoc].count dupDoc ≤ 1) := by
  exact ⟨rfl, by decide⟩

/-- C2: the spec requires `Close` to be safe when invoked more than once,
but `Close` runs `close(p.done)` unguarded: the first call succeeds and
the second panics with "close of closed channel" — a code bug, witnessed
here by evaluating the code on two successive calls. -/
theorem close_twice_panics :
    ∃ p' : PersistedSimpleIndex,
      NewPersistedSimpleIndex.Close = .ok p' ∧
      p'.Close = .error (.goPanic "close of closed channel") := by
  exact ⟨{ NewPersistedSimpleIndex with doneClosed := true, db := none }, rfl, rfl⟩

/-- C5 counterexample: the claim says parsing fails whenever the
resulting value is empty, including `a=""`; in fact `ParseQuery "a=\x22\x22"`
succeeds, producing one condition whose value is the empty string. -/
theorem parse_accepts_empty_quoted_value :
    ParseQuery "a=\"\"" =
      .ok { Conditions := [{ Dimension := "a", Operator := .OpEquals, Value := "" }],
            RawQuery := "a=\"\"" } := by
  rfl

/-- C5 amended: parsing fails with a FormatError exactly when a segment
does not match the dimension-operator-value shape (`ParseQuery "bogus"`
fails); there is no emptiness check on the resulting value — a raw empty
value cannot match the shape, but an empty quoted value such as `a=""`
parses successfully to an empty-string value. -/
theorem parse_condition_shape_errors :
    (∀ s, regexCondMatch s = none →
      parseCondition s = .error (.goError ("invalid condition format: " ++ s))) ∧
    ParseQuery "bogus" =
      .error (.goError "failed to parse condition 'bogus': invalid condition format: bogus") ∧
    parseCondition "a=\"\"" =
      .ok { Dimension := "a", Operator := .OpEquals, Value := "" } := by
  refine ⟨fun s h => ?_, rfl, rfl⟩
  unfold parseCondition
  rw [h]

/-- C5 witness: the shape-mismatch hypothesis holds at `"bogus"` and the
amended theorem applies there. -/
theorem parse_condition_shape_errors_witness :
    regexCondMatch "bogus" = none ∧
    parseCondition "bogus" = .error (.goError ("invalid condition format: " ++ "bogus")) := by
  exact ⟨rfl, parse_condition_shape_errors.1 "bogus" rfl⟩

/-- C6: for an ordering-operator condition, a non-numeric document value
falls back to byte-wise string comparison without error; a numeric
document value with a non-numeric query literal is a hard error; two
numeric values compare numerically; concretely `fileSize > 10` is true
on `fileSize = "100"` and evaluates (to a boolean, via the string
fallback) on `fileSize = "abc"`. -/
theorem ordering_operator_numeric_fallback (c : QueryCondition) (docValue : String)
    (hop : isOrderingOp c.Operator = true) :
    orderingConclusion c docValue := by
  refine ⟨?_, ?_, ?_, rfl, rfl⟩
  · intro hd
    unfold QueryCondition.evaluateNumeric
    rw [hd]
    cases hOp : c.Operator <;>
      simp_all [goStrCompare, isOrderingOp]
  · intro x hd hq
    unfold QueryCondition.evaluateNumeric
    rw [hd, hq]
  · intro x y hd hq
    unfold QueryCondition.evaluateNumeric
    rw [hd, hq]
    cases hOp : c.Operator <;>
      simp_all [decCompare, isOrderingOp]

/-- C6 witness: the ordering hypothesis holds for `fileSize > 10` and
the theorem applies with document value `"abc"`. -/
theorem ordering_operator_numeric_fallback_witness :
    isOrderingOp condFSgt10.Operator = true ∧ orderingConclusion condFSgt10 "abc" :=
  ⟨rfl, ordering_operator_numeric_fallback condFSgt10 "abc" rfl⟩

/-- The batch-delete loop aborts at the first ID absent from the current
state, leaving the state reached by the successful prior deletions. -/
theorem deleteDocuments_abort (bad : String) (post : List String) :
    ∀ (pre : List String) (idx : SimpleIndex),
      (idx.DeleteDocuments pre).2 = .ok () →
      mapLookup (idx.DeleteDocuments pre).1.documents bad = none →
      idx.DeleteDocuments (pre ++ bad :: post) =
        ((idx.DeleteDocuments pre).1,
          .error (.goError ("document " ++ bad ++ " not found in index"))) := by
  intro pre
  induction pre with
  | nil =>
    intro idx _ hbad
    simp only [SimpleIndex.DeleteDocuments] at hbad ⊢
    simp [SimpleIndex.DeleteDocument, hbad]
  | cons q qs ih =>
    intro idx hpre hbad
    simp only [SimpleIndex.DeleteDocuments] at hpre hbad ⊢
    cases hr : (idx.DeleteDocument q).2 with
    | error f => rw [hr] at hpre; simp at hpre
    | ok u =>
      rw [hr] at hpre hbad
      cases u
      exact ih (idx.DeleteDocument q).1 hpre hbad

/-- C7: deleting an absent ID returns the not-found error, leaves the
index (and so `Count`) unchanged; the batch form aborts at the first
absent ID, with all earlier deletions applied and later IDs untouched. -/
theorem delete_notfound_semantics (idx : SimpleIndex) (id bad : String)
    (pre post : List String)
    (habs : mapLookup idx.documents id = none)
    (hpre : (idx.DeleteDocuments pre).2 = .ok ())
    (hbad : mapLookup (idx.DeleteDocuments pre).1.documents bad = none) :
    idx.DeleteDocument id =
      (idx, .error (.goError ("document " ++ id ++ " not found in index"))) ∧
    ((idx.DeleteDocument id).1.Count).1 = (idx.Count).1 ∧
    idx.DeleteDocuments (pre ++ bad :: post) =
      ((idx.DeleteDocuments pre).1,
        .error (.goError ("document " ++ bad ++ " not found in index"))) := by
  have h1 : idx.DeleteDocument id =
      (idx, .error (.goError ("document " ++ id ++ " not found in index"))) := by
    simp [SimpleIndex.DeleteDocument, habs]
  exact ⟨h1, by rw [h1], deleteDocuments_abort bad post pre idx hpre hbad⟩

/-- C7 witness: on the two-document fixture, delete `"zz"` (absent) and
the batch `["1", "x", "2"]` (aborting at `"x"` after `"1"` is deleted). -/
theorem delete_notfound_semantics_witness :
    mapLookup delIdx.documents "zz" = none ∧
    (delIdx.DeleteDocuments ["1"]).2 = .ok () ∧
    mapLookup (delIdx.DeleteDocuments ["1"]).1.documents "x" = none ∧
    (delIdx.DeleteDocument "zz" =
      (delIdx, .error (.goError ("document " ++ "zz" ++ " not found in index"))) ∧
    ((delIdx.DeleteDocument "zz").1.Count).1 = (delIdx.Count).1 ∧
    delIdx.DeleteDocuments (["1"] ++ "x" :: ["2"]) =
      ((delIdx.DeleteDocuments ["1"]).1,
        .error (.goError ("document " ++ "x" ++ " not found in index")))) :=
  ⟨rfl, rfl, rfl, delete_notfound_semantics delIdx "zz" "x" ["1"] ["2"] rfl rfl rfl⟩

/-- The shared wrapper shape of every mutating call, evaluated when no
database is open: the in-memory result is returned and the enqueue is
skipped. -/
theorem memWrap (p : PersistedSimpleIndex) (hdb : p.db = none)
    (r : SimpleIndex × Except GoFault Unit) (op : DbOperation) :
    (match r.2 with
      | .error f => ({ p with index := r.1 }, Except.error f)
      | .ok _ => (enqueueIfOpen { p with index := r.1 } op, Except.ok ())) =
    ({ p with index := r.1 }, r.2) := by
  cases hr : r.2 with
  | error f => simp
  | ok u =>
    cases u
    show (enqueueIfOpen { p with index := r.1 } op, Except.ok ()) = _
    rw [enqueueIfOpen_none { p with index := r.1 } op hdb]

/-- C10: with the database never opened, every mutating operation
behaves exactly like the wrapped in-memory index — same result, only the
in-memory index changed, no durable job enqueued. -/
theorem no_database_ops_are_memory_only (p : PersistedSimpleIndex)
    (hdb : p.db = none) (doc : Document) (docs : List Document) (id : String)
    (ids : List String) (cfg : List (String × ConfigValue)) :
    memOnlyConclusion p doc docs id ids cfg :=
  ⟨memWrap p hdb (p.index.AddDocument doc) (.add_document doc),
   memWrap p hdb (p.index.AddDocuments docs) (.add_documents docs),
   memWrap p hdb (p.index.UpdateDocument id doc) (.update_document id doc),
   memWrap p hdb (p.index.UpdateDocuments docs) (.update_documents docs),
   memWrap p hdb (p.index.DeleteDocument id) (.delete_document id),
   memWrap p hdb (p.index.DeleteDocuments ids) (.delete_documents ids),
   memWrap p hdb (p.index.Configure cfg) (.configure cfg)⟩

/-- C10 witness: the fresh index has no database and the theorem applies
at concrete arguments. -/
theorem no_database_ops_are_memory_only_witness :
    NewPersistedSimpleIndex.db = none ∧
    memOnlyConclusion NewPersistedSimpleIndex delDocA [delDocB] "1" ["1"]
      [("max_results", ⟨"10"⟩)] :=
  ⟨rfl, no_database_ops_are_memory_only NewPersistedSimpleIndex rfl delDocA
    [delDocB] "1" ["1"] [("max_results", ⟨"10"⟩)]⟩

/-- C4: when the bounded queue is full, a mutating call whose in-memory
mutation succeeds still reports success, the in-memory mutation is
applied, and the job is dropped (the state changes only in the wrapped
index); `AddDocument` reports success in every state. -/
theorem mutating_call_success_on_full_queue (p : PersistedSimpleIndex)
    (doc : Document) (id : String)
    (hfull : p.opChanCap ≤ p.opChan.length)
    (hdel : (p.index.DeleteDocument id).2 = .ok ()) :
    fullQueueConclusion p doc id := by
  refine ⟨?_, fun q => rfl, ?_⟩
  · show (enqueueIfOpen { p with index := (p.index.AddDocument doc).1 }
      (.add_document doc), Except.ok ()) = _
    rw [enqueueIfOpen_full { p with index := (p.index.AddDocument doc).1 }
      (.add_document doc) hfull]
  · show (match (p.index.DeleteDocument id).2 with
      | .error f => ({ p with index := (p.index.DeleteDocument id).1 }, Except.error f)
      | .ok _ => (enqueueIfOpen { p with index := (p.index.DeleteDocument id).1 }
          (.delete_document id), Except.ok ())) = _
    rw [hdel]
    rw [enqueueIfOpen_full { p with index := (p.index.DeleteDocument id).1 }
      (.delete_document id) hfull]

/-- C4 witness: a durable index with an open database and a full
two-slot queue; the present ID `"1"` deletes successfully in memory. -/
theorem mutating_call_success_on_full_queue_witness :
    fullQueueIdx.opChanCap ≤ fullQueueIdx.opChan.length ∧
    (fullQueueIdx.index.DeleteDocument "1").2 = .ok () ∧
    fullQueueConclusion fullQueueIdx delDocB "1" :=
  ⟨by decide, rfl,
   mutating_call_success_on_full_queue fullQueueIdx delDocB "1" (by decide) rfl⟩

/-- The advanced-search loop equals a `filterMap` keeping exactly the
documents whose evaluation returns `ok true`. -/
theorem searchAdvancedGo_eq_filterMap (q : Query) :
    ∀ l : List (String × Document), searchAdvancedGo q l = l.filterMap (keepMatch q) := by
  intro l
  induction l with
  | nil => rfl
  | cons e rest ih =>
    cases he : q.Evaluate e.2 with
    | error f => simp [searchAdvancedGo, keepMatch, he, ih]
    | ok b => cases b <;> simp [searchAdvancedGo, keepMatch, he, ih]

/-- C9: a condition-evaluation error never propagates out of search —
`searchAdvanced` returns `ok` with exactly the documents evaluating to
`ok true` (erroring documents are skipped), and `Search` on a
successfully parsed non-empty query does the same. -/
theorem search_never_propagates_eval_errors (idx : SimpleIndex) (q : Query)
    (query : String) (pq : Query)
    (hp : ParseQuery query = .ok pq) (hc : pq.Conditions ≠ []) :
    idx.searchAdvanced q = .ok (idx.documents.filterMap (keepMatch q)) ∧
    idx.Search query = .ok (idx.documents.filterMap (keepMatch pq)) := by
  constructor
  · unfold SimpleIndex.searchAdvanced
    rw [searchAdvancedGo_eq_filterMap]
  · have hne : ¬(query == "") = true := by
      intro h
      have hq : query = "" := by simpa using h
      subst hq
      have h0 : ParseQuery "" = Except.ok { Conditions := [], RawQuery := "" } := rfl
      rw [h0] at hp
      exact hc (by rw [← Except.ok.inj hp])
    have hlen : 0 < pq.Conditions.length := List.length_pos.mpr hc
    unfold SimpleIndex.Search
    rw [if_neg hne, hp]
    simp only [hlen, if_pos]
    unfold SimpleIndex.searchAdvanced
    rw [searchAdvancedGo_eq_filterMap]

/-- C9 witness: `"fileSize>abc"` parses to the non-empty `advQ` and the
theorem applies on the fixture index whose first document errors. -/
theorem search_never_propagates_eval_errors_witness :
    ParseQuery "fileSize>abc" = .ok advQ ∧
    advQ.Conditions ≠ [] ∧
    (errIdx.searchAdvanced advQ = .ok (errIdx.documents.filterMap (keepMatch advQ)) ∧
     errIdx.Search "fileSize>abc" = .ok (errIdx.documents.filterMap (keepMatch advQ))) :=
  ⟨rfl, by decide,
   search_never_propagates_eval_errors errIdx advQ "fileSize>abc" advQ rfl (by decide)⟩

/-- `LoadDocumentsFromDatabase` with an open store: clears the index,
then either aborts with the decode error or bulk-adds the decoded
documents. -/
theorem loadDocuments_spec (p : PersistedSimpleIndex) (disk : Store)
    (h : p.db = some disk) :
    p.LoadDocumentsFromDatabase =
      (match decodeDocsBucket disk.documents with
        | .error f => ({ p with index := NewSimpleIndex }, Except.error f)
        | .ok docs =>
          ({ p with index := (NewSimpleIndex.AddDocuments docs).1 }, Except.ok ())) := by
  unfold PersistedSimpleIndex.LoadDocumentsFromDatabase
  rw [h]
  cases hd : decodeDocsBucket disk.documents with
  | error f => simp [hd]
  | ok docs => simp [hd, addDocuments_ok]

/-- `LoadConfigFromDatabase` changes at most the wrapped index. -/
theorem loadConfig_only_index (p : PersistedSimpleIndex) :
    ∃ i, (p.LoadConfigFromDatabase).1 = { p with index := i } := by
  obtain ⟨idx, db, chan, cap, dc⟩ := p
  unfold PersistedSimpleIndex.LoadConfigFromDatabase
  cases db with
  | none => exact ⟨idx, rfl⟩
  | some s =>
    obtain ⟨docsL, cfg⟩ := s
    cases cfg with
    | none => exact ⟨idx, rfl⟩
    | some b =>
      cases b with
      | cfg c => exact ⟨{ idx with config := c }, rfl⟩
      | doc d => exact ⟨idx, rfl⟩
      | corrupt r => exact ⟨idx, rfl⟩

/-- C3 counterexample: on a store whose non-empty documents bucket fails
to decode, `LoadAllFromDatabase` does return an error, but the
open-with-load step `NewPersistedSimpleIndexWithDatabaseAndLoad`
swallows it and succeeds (with an empty in-memory index) — the claim
says the open step returns a fatal error. -/
theorem open_with_load_swallows_document_load_failure :
    diskBad.documents ≠ [] ∧
    ((openedFor diskBad).LoadAllFromDatabase).2 =
      .error (.goError ("failed to load documents from database: " ++
        "failed to unmarshal document 1: invalid JSON")) ∧
    NewPersistedSimpleIndexWithDatabaseAndLoad diskBad = .ok (openedFor diskBad) :=
  ⟨by decide, rfl, rfl⟩

/-- C3 amended: a document-load failure is fatal to `LoadAllFromDatabase`
(it returns the wrapped decode error) but not to the open step —
`NewPersistedSimpleIndexWithDatabaseAndLoad` always returns success,
logging load failures; when the documents decode, `LoadAllFromDatabase`
succeeds even if configuration loading failed (the config failure is
swallowed at both levels). -/
theorem load_failure_fatal_only_to_load_step (disk : Store) :
    (∃ p, NewPersistedSimpleIndexWithDatabaseAndLoad disk = .ok p) ∧
    (∀ f, decodeDocsBucket disk.documents = .error f →
      ((openedFor disk).LoadAllFromDatabase).2 =
        .error (.goError ("failed to load documents from database: " ++ f.msg))) ∧
    (∀ docs, decodeDocsBucket disk.documents = .ok docs →
      ((openedFor disk).LoadAllFromDatabase).2 = .ok ()) := by
  refine ⟨?_, ?_, ?_⟩
  · have key : ∀ b, disk.documents.isEmpty = b →
        ∃ p, NewPersistedSimpleIndexWithDatabaseAndLoad disk = .ok p := by
      intro b h
      cases b with
      | true =>
        exact ⟨openedFor disk,
          by simp [NewPersistedSimpleIndexWithDatabaseAndLoad,
            NewPersistedSimpleIndexWithDatabase, PersistedSimpleIndex.OpenDatabase,
            NewPersistedSimpleIndex, PersistedSimpleIndex.IsDatabaseEmpty, openedFor, h]⟩
      | false =>
        exact ⟨((openedFor disk).LoadAllFromDatabase).1,
          by simp [NewPersistedSimpleIndexWithDatabaseAndLoad,
            NewPersistedSimpleIndexWithDatabase, PersistedSimpleIndex.OpenDatabase,
            NewPersistedSimpleIndex, PersistedSimpleIndex.IsDatabaseEmpty, openedFor, h]⟩
    exact key _ rfl
  · intro f hf
    obtain ⟨i, hi⟩ := loadConfig_only_index (openedFor disk)
    unfold PersistedSimpleIndex.LoadAllFromDatabase
    dsimp only
    rw [hi, loadDocuments_spec { openedFor disk with index := i } disk rfl, hf]
  · intro docs hd
    obtain ⟨i, hi⟩ := loadConfig_only_index (openedFor disk)
    unfold PersistedSimpleIndex.LoadAllFromDatabase
    dsimp only
    rw [hi, loadDocuments_spec { openedFor disk with index := i } disk rfl, hd]

/-- C3 witness: the decode-failure hypothesis holds on the second
corrupt store (which also carries a loadable configuration) and the
amended theorem applies there. -/
theorem load_failure_fatal_only_to_load_step_witness :
    decodeDocsBucket diskBad2.documents =
      .error (.goError "failed to unmarshal document 7: invalid JSON") ∧
    ((openedFor diskBad2).LoadAllFromDatabase).2 =
      .error (.goError ("failed to load documents from database: " ++
        (GoFault.goError "failed to unmarshal document 7: invalid JSON").msg)) :=
  ⟨rfl, (load_failure_fatal_only_to_load_step diskBad2).2.1 _ rfl⟩

/-- One event preserves the queue/worker invariant. -/
theorem sysStep_preserves_inv (s : Store) (st : SysState) (e : SysEvent)
    (h : SysInv s st) : SysInv s (sysStep st e) := by
  obtain ⟨h1, h2, h3⟩ := h
  cases e with
  | enqueueAttempt op =>
    simp only [sysStep]
    by_cases hq : st.queue.length < st.cap
    · rw [if_pos hq]
      exact ⟨by rw [h1, List.append_assoc], h2, h3⟩
    · rw [if_neg hq]
      exact ⟨h1, h2, h3⟩
  | workerStep txOk =>
    simp only [sysStep]
    cases hqu : st.queue with
    | nil => exact ⟨h1, h2, h3⟩
    | cons op rest =>
      refine ⟨?_, ?_, ?_⟩
      · show st.enqueued = (st.processed ++ [op]) ++ rest
        rw [h1, hqu]
        simp
      · cases txOk with
        | false => exact h2.trans (List.sublist_append_left _ _)
        | true => exact h2.append (List.Sublist.refl [op])
      · cases txOk with
        | false => exact h3
        | true =>
          show processDBOperation st.store op = _
          rw [h3]
          simp [List.foldl_append]

/-- Running a schedule preserves the queue/worker invariant. -/
theorem sysRun_preserves_inv (s : Store) :
    ∀ (evs : List SysEvent) (st : SysState),
      SysInv s st → SysInv s (sysRun st evs) := by
  intro evs
  induction evs with
  | nil => intro st h; exact h
  | cons e evs ih => intro st h; exact ih _ (sysStep_preserves_inv s st e h)

/-- A worker iteration never changes the accepted-jobs history. -/
theorem sysStep_worker_enqueued (st : SysState) (b : Bool) :
    (sysStep st (.workerStep b)).enqueued = st.enqueued := by
  simp only [sysStep]
  cases hqu : st.queue <;> rfl

/-- Across any schedule, the accepted-jobs history grows by a sublist of
the attempted jobs, in order. -/
theorem sysRun_enqueued_growth :
    ∀ (evs : List SysEvent) (st : SysState),
      ∃ d, (sysRun st evs).enqueued = st.enqueued ++ d ∧
        List.Sublist d (attemptedOps evs) := by
  intro evs
  induction evs with
  | nil => intro st; exact ⟨[], by simp [sysRun], List.nil_sublist _⟩
  | cons e evs ih =>
    intro st
    cases e with
    | enqueueAttempt op =>
      obtain ⟨d, hd, hs⟩ := ih (sysStep st (.enqueueAttempt op))
      by_cases hq : st.queue.length < st.cap
      · refine ⟨op :: d, ?_, ?_⟩
        · show (sysRun (sysStep st (.enqueueAttempt op)) evs).enqueued = _
          rw [hd]
          show (sysStep st (.enqueueAttempt op)).enqueued ++ d = _
          simp only [sysStep]
          rw [if_pos hq]
          simp
        · show List.Sublist (op :: d) (attemptedOps (.enqueueAttempt op :: evs))
          exact List.Sublist.cons₂ op hs
      · have hstep : sysStep st (.enqueueAttempt op) = st := by
          simp only [sysStep]; rw [if_neg hq]
        refine ⟨d, ?_, ?_⟩
        · show (sysRun (sysStep st (.enqueueAttempt op)) evs).enqueued = _
          rw [hstep]
          rw [hstep] at hd
          exact hd
        · exact hs.cons op
    | workerStep b =>
      obtain ⟨d, hd, hs⟩ := ih (sysStep st (.workerStep b))
      refine ⟨d, ?_, ?_⟩
      · show (sysRun (sysStep st (.workerStep b)) evs).enqueued = _
        rw [hd, sysStep_worker_enqueued]
      · simpa [attemptedOps] using hs

/-- C8: for every interleaving of producer enqueue attempts with the
single worker, the accepted jobs split into the processed prefix followed
by the still-queued suffix (strict FIFO), the committed jobs are an
order-preserving subsequence of the processed ones, the durable store is
exactly the fold of the committed jobs (each applied as one atomic
transaction), and the accepted jobs are an order-preserving subsequence
(modulo drops) of everything attempted. -/
theorem worker_applies_fifo_subsequence (s : Store) (cap : Nat)
    (evs : List SysEvent) :
    (sysFinal s cap evs).enqueued =
      (sysFinal s cap evs).processed ++ (sysFinal s cap evs).queue ∧
    List.Sublist (sysFinal s cap evs).applied (sysFinal s cap evs).processed ∧
    (sysFinal s cap evs).store =
      (sysFinal s cap evs).applied.foldl processDBOperation s ∧
    List.Sublist (sysFinal s cap evs).enqueued (attemptedOps evs) := by
  have h0 : SysInv s (initSys s cap) := ⟨rfl, List.nil_sublist _, rfl⟩
  have hinv := sysRun_preserves_inv s evs (initSys s cap) h0
  obtain ⟨d, hd, hs⟩ := sysRun_enqueued_growth evs (initSys s cap)
  refine ⟨hinv.1, hinv.2.1, hinv.2.2, ?_⟩
  show (sysRun (initSys s cap) evs).enqueued.Sublist _
  rw [hd]
  simpa using hs

end BitScout
